import Mathlib

/-!
Verification of the board/port reconciliation engine of
`arduino-ide-extension/src/browser/boards/boards-service-provider.ts`.

The TypeScript class `BoardsServiceProvider` is shallowly embedded: its
mutable fields become a `ProviderState` record, every method that mutates
the state becomes a pure state-transition function, asynchronous storage
reads (`getData`) are passed in as explicit parameters, and asynchronous
persistence/notification (side effects on external collaborators) is not
part of the state.  TypeScript `X | undefined` values become `Option X`;
JavaScript string truthiness (where `""` is falsy) is modelled explicitly
where the source relies on it.
-/

/-- A connection endpoint, from `common/protocol`: `{ address, protocol }`. -/
structure Port where
  address : String
  protocol : String
deriving DecidableEq, Repr

/-- `AvailableBoard.State` from the source: `recognized` (from live
discovery), `guessed` (from the remembered board-on-port map) or
`incomplete` (nothing known).  The TypeScript `enum` gives them the
numeric values 0, 1, 2 used by `AvailableBoard.compare`. -/
inductive AvState where
  | recognized
  | guessed
  | incomplete
deriving DecidableEq, Repr

/-- Numeric value of the TypeScript `enum AvailableBoard.State`. -/
def AvState.rank : AvState → Nat
  | .recognized => 0
  | .guessed => 1
  | .incomplete => 2

/-- A hardware target, from `common/protocol`: `{ name, fqbn?, port? }`.
TypeScript objects are structurally typed, so a `Board` value held in the
configuration may additionally carry the `state`/`selected` fields of an
`AvailableBoard` snapshot (the source tests for this with
`AvailableBoard.is`, i.e. `'state' in board`); the optional `avail` field
models those two extra fields (`state`, truthiness of `selected`). -/
structure Board where
  name : String
  fqbn : Option String := none
  port : Option Port := none
  avail : Option (AvState × Bool) := none
deriving DecidableEq, Repr

/-- `BoardsConfig.Config` from `browser/boards/boards-config`:
`{ selectedBoard?, selectedPort? }`. -/
structure Config where
  selectedBoard : Option Board := none
  selectedPort : Option Port := none
deriving DecidableEq, Repr

/-- `RecursiveRequired<BoardsConfig.Config>`: the type of
`_latestValidBoardsConfig`, whose `selectedBoard` and `selectedPort` are
present.  (The nested `fqbn` is required by the TypeScript type but the
runtime value is only guarded by `canUploadTo`, so the board keeps its
`Option String` fqbn here.) -/
structure ValidConfig where
  selectedBoard : Board
  selectedPort : Port
deriving DecidableEq, Repr

/-- A `ValidConfig` used as a plain `Config` (the source assigns
`_latestValidBoardsConfig` directly to `boardsConfig`). -/
def ValidConfig.toConfig (v : ValidConfig) : Config :=
  { selectedBoard := some v.selectedBoard, selectedPort := some v.selectedPort }

/-- Modelled from the spec: `Port.sameAs` lives in `common/protocol`,
which is not under `src/`.  Per the spec, two ports are the same iff
address and protocol match; with an absent side the comparison is false
(the source calls it with possibly-`undefined` arguments). -/
def Port.sameAs : Option Port → Option Port → Bool
  | some l, some r => l.address == r.address && l.protocol == r.protocol
  | _, _ => false

/-- Modelled from the spec: `Board.equals` / `Board.sameAs` live in
`common/protocol`, not under `src/`.  Per the spec, a board is the same
as another iff name and fqbn match (fqbn presence/absence included). -/
def Board.sameAs (l : Board) (r : Board) : Bool :=
  l.name == r.name && l.fqbn == r.fqbn

/-- JavaScript truthiness of an optional string: `undefined` and `""` are
falsy (the source tests `!config.selectedBoard.fqbn`). -/
def strTruthy : Option String → Bool
  | none => false
  | some s => !(s == "")

/-- The user-visible warnings the provider can emit through
`messageService.warn`. -/
inductive Warning where
  | noBoardsSelected
  | noPortsSelected (boardName : String)
  | noFqbn (boardName : String)
deriving DecidableEq, Repr

/-- `canVerify(config = this.boardsConfig, options = { silent: true })`.
The first component is the returned boolean, the second the list of
warnings emitted.  A JavaScript default parameter replaces an
explicitly-`undefined` argument as well as an omitted one, so the
`Option Config` argument is resolved against `current`
(`this.boardsConfig`, which is always an object) before the body runs;
the body's `if (!config) return false` guard is consequently
unreachable for `undefined` arguments. -/
def canVerify (arg : Option Config) (silent : Bool) (current : Config) :
    Bool × List Warning :=
  let config := arg.getD current
  match config.selectedBoard with
  | none => (false, if silent then [] else [Warning.noBoardsSelected])
  | some _ => (true, [])

/-- `canUploadTo(config = this.boardsConfig, options = { silent: true })`:
`canVerify`, then port presence, then fqbn truthiness, warning on the
first unmet condition when not silent. -/
def canUploadTo (arg : Option Config) (silent : Bool) (current : Config) :
    Bool × List Warning :=
  let config := arg.getD current
  match canVerify (some config) silent current with
  | (false, w) => (false, w)
  | (true, w) =>
    match config.selectedBoard with
    | none => (false, w)
    | some board =>
      if config.selectedPort.isNone then
        (false, w ++ if silent then [] else [Warning.noPortsSelected board.name])
      else if !(strTruthy board.fqbn) then
        (false, w ++ if silent then [] else [Warning.noFqbn board.name])
      else (true, w)

/-- The boolean outcome of `canUploadTo` on an explicit configuration
(the silent probe the provider itself uses). -/
def canUploadToB (c : Config) : Bool :=
  (canUploadTo (some c) true c).1

/-- An entry of the derived `availableBoards` projection
(`AvailableBoard` in the source): a board plus `state`, `selected`
(optional in TypeScript, falsy when absent, hence a plain `Bool`) and the
port it occupies. -/
structure AB where
  name : String
  fqbn : Option String := none
  state : AvState
  selected : Bool := false
  port : Option Port := none
deriving DecidableEq, Repr

/-- The mutable fields of `BoardsServiceProvider`.  The per-port
remembered-board map (persisted storage behind
`getLastSelectedBoardOnPort`) is carried as a function from the port
address (the storage key drops the protocol) to the stored board. -/
structure ProviderState where
  boardsConfig : Config := {}
  latestBoardsConfig : Option Config := none
  latestValidBoardsConfig : Option ValidConfig := none
  attachedBoards : List Board := []
  availablePorts : List Port := []
  availableBoards : List AB := []

/-- `toValid? c` is `some` exactly on configurations with both fields
present; used to store an uploadable configuration into the
`RecursiveRequired`-typed field. -/
def toValid? (c : Config) : Option ValidConfig :=
  match c.selectedBoard, c.selectedPort with
  | some b, some p => some { selectedBoard := b, selectedPort := p }
  | _, _ => none

/-- `setBoardsConfig(config)`: replaces `_boardsConfig`, synchronously
updates `_latestBoardsConfig`, and — iff `canUploadTo` holds — updates
`_latestValidBoardsConfig`. -/
def setBoardsConfig (config : Config) (s : ProviderState) : ProviderState :=
  { s with
    boardsConfig := config
    latestBoardsConfig := some config
    latestValidBoardsConfig :=
      if canUploadToB config then toValid? config else s.latestValidBoardsConfig }

/-- A token of the natural ("human") string comparison: a maximal digit
run, compared numerically, or a single other character, compared by code
point.  Modelled from the spec: `naturalCompare` comes from
`common/utils` (not under `src/`); the spec only calls it "a natural
(human) string comparison". -/
inductive NatToken where
  | digits (ds : List Char)
  | ch (c : Char)
deriving DecidableEq, Repr

/-- Numeric value of a digit run. -/
def digitsToNat (ds : List Char) : Nat :=
  ds.foldl (fun acc c => acc * 10 + (c.toNat - 48)) 0

/-- Tokenize a string for natural comparison: maximal digit runs become
numeric tokens, other characters single-character tokens. -/
def natTokens : List Char → List NatToken
  | [] => []
  | c :: cs =>
    if c.isDigit then
      match natTokens cs with
      | NatToken.digits ds :: rest => NatToken.digits (c :: ds) :: rest
      | rest => NatToken.digits [c] :: rest
    else NatToken.ch c :: natTokens cs

/-- Order between two tokens: digit runs numerically, characters by code
point, and a digit run sorts before a non-digit character. -/
def NatToken.cmp : NatToken → NatToken → Ordering
  | .digits ds, .digits es =>
    if digitsToNat ds < digitsToNat es then .lt
    else if digitsToNat es < digitsToNat ds then .gt
    else .eq
  | .digits _, .ch _ => .lt
  | .ch _, .digits _ => .gt
  | .ch c, .ch d =>
    if c.toNat < d.toNat then .lt else if d.toNat < c.toNat then .gt else .eq

/-- Lexicographic comparison of token lists. -/
def lexTokens : List NatToken → List NatToken → Ordering
  | [], [] => .eq
  | [], _ :: _ => .lt
  | _ :: _, [] => .gt
  | a :: as, b :: bs =>
    match NatToken.cmp a b with
    | .eq => lexTokens as bs
    | o => o

/-- Modelled from the spec: `naturalCompare` from `common/utils` (not
under `src/`) — a natural (human) string comparison, returning a
negative, zero or positive number. -/
def naturalCompare (a b : String) : Int :=
  match lexTokens (natTokens a.data) (natTokens b.data) with
  | .lt => -1
  | .eq => 0
  | .gt => 1

/-- The string handed to `naturalCompare` by `AvailableBoard.compare`'s
`left.port?.address!`: with an absent port the non-null assertion lets
`undefined` through, modelled as its string coercion (only reachable for
the synthetic port-less selected entry). -/
def addrString : Option Port → String
  | some p => p.address
  | none => "undefined"

/-- `AvailableBoard.compare` (source lines 652–680): serial before
non-serial, then network before other non-serial; the `state` ranks are
compared only when the two protocols are equal; otherwise the natural
comparison of the port addresses decides. -/
def AvailableBoard.compare (l r : AB) : Int :=
  let lp := l.port.map (fun p => p.protocol)
  let rp := r.port.map (fun p => p.protocol)
  if lp == some "serial" && !(rp == some "serial") then -1
  else if !(lp == some "serial") && rp == some "serial" then 1
  else if lp == some "network" && !(rp == some "network") then -1
  else if !(lp == some "network") && rp == some "network" then 1
  else if lp == rp && l.state.rank < r.state.rank then -1
  else if lp == rp && r.state.rank < l.state.rank then 1
  else naturalCompare (addrString l.port) (addrString r.port)

/-- The comparator as a binary relation: `l` may precede `r`. -/
def abLE (l r : AB) : Prop := AvailableBoard.compare l r ≤ 0

instance : DecidableRel abLE := fun l r =>
  inferInstanceAs (Decidable (AvailableBoard.compare l r ≤ 0))

/-- Step 1 of `reconcileAvailableBoards`: unset the configured port when
it is no longer among the available ports (the source goes through
`setBoardsConfig` for this). -/
def clearMissingPort (s : ProviderState) : ProviderState :=
  match s.boardsConfig.selectedPort with
  | some _ =>
    if s.availablePorts.any (fun port => Port.sameAs (some port) s.boardsConfig.selectedPort)
    then s
    else setBoardsConfig
      { selectedBoard := s.boardsConfig.selectedBoard, selectedPort := none } s
  | none => s

/-- The attached boards that actually carry a port (source line 451). -/
def attachedWithPort (attached : List Board) : List Board :=
  attached.filter (fun b => b.port.isSome)

/-- The candidate port list (source lines 452–468): serial ports are
always kept, any other port only when some attached board's port address
matches it. -/
def availableBoardPorts (availablePorts : List Port) (attached' : List Board) : List Port :=
  availablePorts.filter (fun port =>
    port.protocol == "serial" ||
    attached'.any (fun board => board.port.map (fun p => p.address) == some port.address))

/-- Modelled from the spec: `BoardsConfig.Config.sameAs` lives in
`browser/boards/boards-config`, not under `src/`.  Per the spec, an
available board is `selected` iff it matches the current selected
configuration: board-equals (name and fqbn) and port-equals (address and
protocol) against the port the available board occupies. -/
def Config.sameAs (config : Config) (board : Board) (occupiedPort : Port) : Bool :=
  match config.selectedBoard with
  | some sb => sb.sameAs board && Port.sameAs config.selectedPort (some occupiedPort)
  | none => false

/-- Resolve one candidate port to an `AvailableBoard` (source lines
470–503): an attached board on the same port gives a `recognized` entry,
else a remembered board for the port's address gives a `guessed` entry,
else an `incomplete` "Unknown" entry. -/
def resolveAvailableBoard (cfg : Config) (attached' : List Board)
    (remembered : String → Option Board) (boardPort : Port) : AB :=
  match attached'.find? (fun b => Port.sameAs (some boardPort) b.port) with
  | some board =>
    { name := board.name, fqbn := board.fqbn, state := .recognized,
      selected := Config.sameAs cfg board boardPort, port := some boardPort }
  | none =>
    match remembered boardPort.address with
    | some lastSelectedBoard =>
      { name := lastSelectedBoard.name, fqbn := lastSelectedBoard.fqbn, state := .guessed,
        selected := Config.sameAs cfg lastSelectedBoard boardPort, port := some boardPort }
    | none =>
      { name := "Unknown", fqbn := none, state := .incomplete,
        selected := false, port := some boardPort }

/-- The synthetic-selected injection (source lines 505–524): when a board
is configured but no entry is selected, the first entry whose port
address equals the configured port's address is spliced out and a
synthetic `incomplete`, selected entry carrying the configuration is
appended. -/
def spliceSelected (cfg : Config) (entries : List AB) : List AB :=
  match cfg.selectedBoard with
  | some sb =>
    if entries.any (fun e => e.selected) then entries
    else
      let entries' :=
        match entries.findIdx? (fun board =>
            board.port.map (fun p => p.address) == cfg.selectedPort.map (fun p => p.address)) with
        | some i => entries.eraseIdx i
        | none => entries
      entries' ++
        [{ name := sb.name, fqbn := sb.fqbn, state := .incomplete,
           selected := true, port := cfg.selectedPort }]
  | none => entries

/-- The entries built from the live candidate ports by the loop of source
lines 470–503, in candidate-port order. -/
def loopEntries (remembered : String → Option Board) (s : ProviderState) : List AB :=
  let s1 := clearMissingPort s
  let attached' := attachedWithPort s1.attachedBoards
  (availableBoardPorts s1.availablePorts attached').map
    (resolveAvailableBoard s1.boardsConfig attached' remembered)

/-- The list `reconcileAvailableBoards` produces (before the has-changed
diff): resolve every candidate port, inject the synthetic selected entry
if needed, and sort with `AvailableBoard.compare`
(`Array.prototype.sort` is modelled as a stable insertion sort). -/
def reconcileOutput (remembered : String → Option Board) (s : ProviderState) : List AB :=
  (spliceSelected (clearMissingPort s).boardsConfig (loopEntries remembered s)).insertionSort abLE

/-- The element-wise difference test of source lines 528–535 (`fqbn`,
comparator result and `selected` flag). -/
def absHasChanged (newList oldList : List AB) : Bool :=
  newList.length != oldList.length ||
    (newList.zip oldList).any (fun lr =>
      lr.1.fqbn != lr.2.fqbn ||
      !(AvailableBoard.compare lr.1 lr.2 == 0) ||
      lr.1.selected != lr.2.selected)

/-- `reconcileAvailableBoards` as a state transition: the port-clearing
side channel plus the rebuilt projection, stored only when the diff test
reports a change. -/
def reconcileAvailableBoards (remembered : String → Option Board)
    (s : ProviderState) : ProviderState :=
  let s1 := clearMissingPort s
  let out := reconcileOutput remembered s
  if absHasChanged out s1.availableBoards then { s1 with availableBoards := out } else s1

/-- The exact-match predicate of `tryReconnect`'s first pass: fqbn, name
and port (address and protocol) all equal the remembered valid config. -/
def exactReconnectMatch (v : ValidConfig) (board : AB) : Bool :=
  v.selectedBoard.fqbn == board.fqbn &&
  v.selectedBoard.name == board.name &&
  Port.sameAs (some v.selectedPort) board.port

/-- The relaxed-match predicate of `tryReconnect`'s second pass: fqbn and
name equal, and only the port protocol matches (the address is
ignored). -/
def relaxedReconnectMatch (v : ValidConfig) (board : AB) : Bool :=
  v.selectedBoard.fqbn == board.fqbn &&
  v.selectedBoard.name == board.name &&
  some v.selectedPort.protocol == board.port.map (fun p => p.protocol)

/-- `tryReconnect` (source lines 230–264): only with a remembered valid
config and a non-uploadable current config; an exact board+port match
adopts the remembered config, else a board+protocol match adopts the
remembered board on the newly found port; non-`incomplete` entries only,
first match wins. -/
def tryReconnect (s : ProviderState) : ProviderState :=
  match s.latestValidBoardsConfig with
  | some v =>
    if canUploadToB s.boardsConfig then s
    else
      let cands := s.availableBoards.filter (fun b => !(b.state == AvState.incomplete))
      match cands.find? (exactReconnectMatch v) with
      | some _ => setBoardsConfig v.toConfig s
      | none =>
        match cands.find? (relaxedReconnectMatch v) with
        | some board =>
          setBoardsConfig
            { selectedBoard := some v.selectedBoard, selectedPort := board.port } s
        | none => s
  | none => s

/-- `loadState` (source lines 565–590), with the two storage reads and
the URL-derived configuration passed in explicitly.  A stored valid
config is remembered and adopted only when it passes `canUploadTo`; the
latest/URL fallback runs only when no valid config was stored at all. -/
def loadState (storedValid : Option ValidConfig) (storedLatest : Option Config)
    (urlConfig : Option Config) (s : ProviderState) : ProviderState :=
  match storedValid with
  | some v =>
    let s1 := { s with latestValidBoardsConfig := some v }
    if canUploadToB v.toConfig then setBoardsConfig v.toConfig s1 else s1
  | none =>
    match storedLatest <|> urlConfig with
    | some c => setBoardsConfig c { s with latestBoardsConfig := some c }
    | none => s

/-- Whether the current selection is backed by a `recognized`, selected
`AvailableBoard` in the sense of source lines 203–214: when the selected
board itself carries an `AvailableBoard` snapshot (`AvailableBoard.is`),
its own recorded flags decide; otherwise the current `availableBoards`
are searched by `Board.sameAs`. -/
def uninstallBacked (s : ProviderState) (selectedBoard : Board) : Bool :=
  match selectedBoard.avail with
  | some (st, sel) => sel && st == AvState.recognized
  | none =>
    match s.availableBoards.find? (fun ab =>
        Board.sameAs { name := ab.name, fqbn := ab.fqbn } selectedBoard) with
    | some ab => ab.selected && ab.state == AvState.recognized
    | none => false

/-- `notifyPlatformUninstalled` (source lines 190–228): when the selected
board's fqbn matches the first same-named board of the uninstalled
package, the fqbn is stripped unless the selection is backed by a
`recognized`, selected available board — where the backing is read from
the selected board's own `AvailableBoard` snapshot when it carries one
(`AvailableBoard.is`), else looked up in the current `availableBoards`.
The strip keeps only the name and goes through the configuration
setter. -/
def notifyPlatformUninstalled (eventBoards : List Board) (s : ProviderState) : ProviderState :=
  match s.boardsConfig.selectedBoard with
  | some selectedBoard =>
    if strTruthy selectedBoard.fqbn then
      match eventBoards.find? (fun b => b.name == selectedBoard.name) with
      | some uninstalledBoard =>
        if uninstalledBoard.fqbn == selectedBoard.fqbn then
          if uninstallBacked s selectedBoard then s
          else setBoardsConfig
            { selectedBoard := some { name := selectedBoard.name },
              selectedPort := s.boardsConfig.selectedPort } s
        else s
      | none => s
    else s
  | none => s

/-- `!!timeout && timeout > 0` (source line 406): only a positive timeout
creates the rejecting timer; otherwise the race partner is a promise
that never settles. -/
def hasPositiveTimeout : Option Int → Bool
  | some t => decide (0 < t)
  | none => false

/-- The predicate of `waitUntilAvailable`'s `find` (source lines
400–404): board-equality and port-equality against the target. -/
def waitMatches (target : Board × Port) (ab : AB) : Bool :=
  Board.sameAs target.1 { name := ab.name, fqbn := ab.fqbn } &&
  Port.sameAs (some target.2) ab.port

/-- The observable events a pending `waitUntilAvailable` call can see, in
temporal order: an `onAvailableBoardsChanged` notification, or the firing
of its timeout timer. -/
inductive WEvent where
  | boardsChanged (bs : List AB)
  | timeoutFire
deriving DecidableEq, Repr

/-- How the promise returned by `waitUntilAvailable` has settled. -/
inductive WOutcome where
  | resolved
  | rejectedTimeout
  | pending
deriving DecidableEq, Repr

/-- Process the event trace of one `waitUntilAvailable` call: `settled`
is the already-decided race outcome (the first settle wins, later
settles are no-ops), `listener` whether the subscription made on
`onAvailableBoardsChanged` is still registered.  The callback disposes
its subscription exactly when a matching board appears; the timeout
rejection settles the race but touches no subscription. -/
def runWaitAux (target : Board × Port) (hasTimeout : Bool) :
    List WEvent → Option WOutcome → Bool → WOutcome × Bool
  | [], settled, listener => (settled.getD .pending, listener)
  | WEvent.boardsChanged bs :: es, settled, listener =>
    if listener && bs.any (waitMatches target) then
      runWaitAux target hasTimeout es (some (settled.getD .resolved)) false
    else
      runWaitAux target hasTimeout es settled listener
  | WEvent.timeoutFire :: es, settled, listener =>
    if hasTimeout then
      runWaitAux target hasTimeout es (some (settled.getD .rejectedTimeout)) listener
    else
      runWaitAux target hasTimeout es settled listener

/-- `waitUntilAvailable(what, timeout)` over an event trace: an
immediately available match resolves before any subscription is made;
otherwise the call subscribes and the trace decides the outcome.  Returns
the settle state after the trace and whether the call's subscription is
still registered. -/
def runWait (target : Board × Port) (timeout : Option Int)
    (initial : List AB) (events : List WEvent) : WOutcome × Bool :=
  if initial.any (waitMatches target) then (.resolved, false)
  else runWaitAux target (hasPositiveTimeout timeout) events none true

/-- `canUploadTo` as a predicate on the configuration's shape: a board,
a port, and a truthy (present and non-empty) fqbn. -/
theorem canUploadToB_eq (c : Config) :
    canUploadToB c =
      match c.selectedBoard, c.selectedPort with
      | some b, some _ => strTruthy b.fqbn
      | _, _ => false := by
  rcases c with ⟨ob, op⟩
  rcases ob with _ | b <;> rcases op with _ | p <;>
    simp [canUploadToB, canUploadTo, canVerify]
  cases h : strTruthy b.fqbn <;> simp [h]

/-- Helper for C2: along any sequence of `setBoardsConfig` calls, the
latest-valid slot only ever holds configurations whose board has a
truthy fqbn. -/
theorem latestValid_truthy_invariant (cs : List Config) :
    ∀ (s : ProviderState),
      (∀ w, s.latestValidBoardsConfig = some w → strTruthy w.selectedBoard.fqbn = true) →
      ∀ w, ((cs.foldl (fun st cfg => setBoardsConfig cfg st) s).latestValidBoardsConfig = some w) →
        strTruthy w.selectedBoard.fqbn = true := by
  induction cs with
  | nil => intro s hs w hw; exact hs w hw
  | cons c cs ih =>
    intro s hs w hw
    refine ih (setBoardsConfig c s) ?_ w hw
    intro w' hw'
    simp only [setBoardsConfig] at hw'
    by_cases hup : canUploadToB c
    · rw [if_pos hup] at hw'
      have hc := canUploadToB_eq c
      rw [hup] at hc
      rcases hb : c.selectedBoard with _ | b <;> rcases hp : c.selectedPort with _ | p <;>
        rw [hb, hp] at hc <;> simp only at hc
      · simp [toValid?, hb, hp] at hw'
      · simp [toValid?, hb, hp] at hw'
      · simp [toValid?, hb, hp] at hw'
      · simp only [toValid?, hb, hp, Option.some.injEq] at hw'
        subst hw'
        exact hc.symm
    · rw [if_neg hup] at hw'
      exact hs w' hw'

/-- C2: `setBoardsConfig` replaces the current configuration, updates
`latestBoardsConfig` unconditionally, and updates
`latestValidBoardsConfig` exactly when the new configuration is
uploadable (board with truthy fqbn, and a port); otherwise the previous
latest-valid value is retained, so along any sequence of sets starting
from the initial state a configuration whose board lacks an fqbn never
becomes `latestValidBoardsConfig`. -/
theorem c2_set_configuration (s : ProviderState) (c : Config) (cs : List Config)
    (v : ValidConfig) :
    (setBoardsConfig c s).boardsConfig = c ∧
    (setBoardsConfig c s).latestBoardsConfig = some c ∧
    (canUploadToB c = true →
      ∃ w, (setBoardsConfig c s).latestValidBoardsConfig = some w ∧ w.toConfig = c) ∧
    (canUploadToB c = false →
      (setBoardsConfig c s).latestValidBoardsConfig = s.latestValidBoardsConfig) ∧
    (((cs.foldl (fun st cfg => setBoardsConfig cfg st) {}).latestValidBoardsConfig = some v) →
      strTruthy v.selectedBoard.fqbn = true) := by
  refine ⟨rfl, rfl, ?_, ?_, ?_⟩
  · intro hup
    have hc := canUploadToB_eq c
    rw [hup] at hc
    rcases c with ⟨ob, op⟩
    rcases ob with _ | b <;> rcases op with _ | p <;> simp only at hc
    · simp at hc
    · simp at hc
    · simp at hc
    · refine ⟨{ selectedBoard := b, selectedPort := p }, ?_, rfl⟩
      simp [setBoardsConfig, hup, toValid?]
  · intro hup
    simp [setBoardsConfig, hup]
  · intro hv
    exact latestValid_truthy_invariant cs {} (by intro w hw; simp at hw) v hv

/-- C2 witness: a concrete uploadable configuration is stored as
latest-valid, and after setting a port-less and an fqbn-less
configuration from the initial state the latest-valid slot is untouched
(still empty). -/
theorem c2_set_configuration_witness :
    (∃ w, (setBoardsConfig
        { selectedBoard := some { name := "X", fqbn := some "f", port := none, avail := none },
          selectedPort := some { address := "COM1", protocol := "serial" } }
        {}).latestValidBoardsConfig = some w ∧
      w.toConfig =
        { selectedBoard := some { name := "X", fqbn := some "f", port := none, avail := none },
          selectedPort := some { address := "COM1", protocol := "serial" } }) ∧
    (setBoardsConfig
        { selectedBoard := some { name := "X", fqbn := none, port := none, avail := none },
          selectedPort := some { address := "COM1", protocol := "serial" } }
        {}).latestValidBoardsConfig = none := by
  constructor
  · exact (c2_set_configuration {} _ [] ⟨{ name := "X" }, { address := "A", protocol := "serial" }⟩).2.2.1
      (by decide)
  · exact (c2_set_configuration {} _ [] ⟨{ name := "X" }, { address := "A", protocol := "serial" }⟩).2.2.2.1
      (by decide)

/-- C10 counterexample: calling `canVerify` with an `undefined`
configuration and `silent: false` does emit the "No boards selected."
warning when the current configuration has no board (the JavaScript
default parameter substitutes the current configuration), and even
returns `true` when the current configuration has a board — the claim
that the call returns `false` with no warning is false. -/
theorem c10_counterexample :
    (canVerify none false { selectedBoard := none, selectedPort := none }).2 ≠ [] ∧
    (canVerify none false
      { selectedBoard := some { name := "Uno", fqbn := some "arduino:avr:uno",
                                port := none, avail := none },
        selectedPort := none }).1 = true := by
  decide

/-- C10 (amended): `canVerify` resolves an absent (`undefined`)
configuration argument to the current configuration; it returns `true`
iff the resolved configuration has a selected board, and emits the
"No boards selected." warning exactly when the resolved configuration
lacks a board and `silent` is `false`. -/
theorem c10_canVerify_defaulting (arg : Option Config) (silent : Bool) (current : Config) :
    canVerify arg silent current =
      ((arg.getD current).selectedBoard.isSome,
        if (arg.getD current).selectedBoard = none ∧ silent = false
        then [Warning.noBoardsSelected] else []) := by
  rcases h : (arg.getD current).selectedBoard with _ | b
  · cases silent <;> simp [canVerify, h]
  · simp [canVerify, h]

/-- C3 counterexample: with a stored "valid" configuration whose fqbn is
the empty string (so it fails `canUploadTo`) and a stored latest
configuration present, the claim says the latest configuration becomes
current — but `loadState` never reaches the fallback when any valid
config was stored, and the current configuration stays empty. -/
theorem c3_counterexample :
    canUploadToB (ValidConfig.toConfig
      { selectedBoard := { name := "X", fqbn := some "", port := none, avail := none },
        selectedPort := { address := "COM1", protocol := "serial" } }) = false ∧
    (loadState
        (some { selectedBoard := { name := "X", fqbn := some "", port := none, avail := none },
                selectedPort := { address := "COM1", protocol := "serial" } })
        (some { selectedBoard := some { name := "Y", fqbn := some "g", port := none, avail := none },
                selectedPort := none })
        none {}).boardsConfig
      ≠ { selectedBoard := some { name := "Y", fqbn := some "g", port := none, avail := none },
          selectedPort := none } ∧
    (loadState
        (some { selectedBoard := { name := "X", fqbn := some "", port := none, avail := none },
                selectedPort := { address := "COM1", protocol := "serial" } })
        (some { selectedBoard := some { name := "Y", fqbn := some "g", port := none, avail := none },
                selectedPort := none })
        none {}).boardsConfig = { selectedBoard := none, selectedPort := none } := by
  decide

/-- C3 (amended): `loadState` adopts a stored valid configuration only
when it passes `canUploadTo`; when a stored valid configuration exists
but fails `canUploadTo`, it is still remembered as latest-valid but
nothing is adopted and no fallback runs; the fallback to the stored
latest configuration, or failing that the URL-derived configuration,
runs only when no valid configuration was stored at all. -/
theorem c3_loadState_priority (v : ValidConfig) (storedLatest urlConfig : Option Config)
    (c : Config) (s : ProviderState) :
    (canUploadToB v.toConfig = true →
      (loadState (some v) storedLatest urlConfig s).boardsConfig = v.toConfig ∧
      (loadState (some v) storedLatest urlConfig s).latestBoardsConfig = some v.toConfig ∧
      (loadState (some v) storedLatest urlConfig s).latestValidBoardsConfig = some v) ∧
    (canUploadToB v.toConfig = false →
      (loadState (some v) storedLatest urlConfig s).boardsConfig = s.boardsConfig ∧
      (loadState (some v) storedLatest urlConfig s).latestBoardsConfig = s.latestBoardsConfig ∧
      (loadState (some v) storedLatest urlConfig s).latestValidBoardsConfig = some v) ∧
    ((storedLatest <|> urlConfig) = some c →
      (loadState none storedLatest urlConfig s).boardsConfig = c ∧
      (loadState none storedLatest urlConfig s).latestBoardsConfig = some c) ∧
    ((storedLatest <|> urlConfig) = none → loadState none storedLatest urlConfig s = s) := by
  refine ⟨?_, ?_, ?_, ?_⟩
  · intro hup
    rcases v with ⟨b, p⟩
    simp [loadState, hup, setBoardsConfig, toValid?, ValidConfig.toConfig] at *
  · intro hup
    simp [loadState, hup]
  · intro hc
    simp [loadState, hc, setBoardsConfig]
  · intro hc
    simp [loadState, hc]

/-- C3 witness: the priority order at concrete inputs — an uploadable
stored valid configuration is adopted; with none stored, the stored
latest configuration is adopted. -/
theorem c3_loadState_priority_witness :
    (loadState
        (some { selectedBoard := { name := "X", fqbn := some "f", port := none, avail := none },
                selectedPort := { address := "COM1", protocol := "serial" } })
        none none {}).boardsConfig =
      { selectedBoard := some { name := "X", fqbn := some "f", port := none, avail := none },
        selectedPort := some { address := "COM1", protocol := "serial" } } ∧
    (loadState none
        (some { selectedBoard := some { name := "Y", fqbn := some "g", port := none, avail := none },
                selectedPort := none })
        none {}).boardsConfig =
      { selectedBoard := some { name := "Y", fqbn := some "g", port := none, avail := none },
        selectedPort := none } := by
  constructor
  · exact ((c3_loadState_priority
      { selectedBoard := { name := "X", fqbn := some "f", port := none, avail := none },
        selectedPort := { address := "COM1", protocol := "serial" } }
      none none { selectedBoard := none, selectedPort := none } {}).1 (by decide)).1
  · exact ((c3_loadState_priority
      { selectedBoard := { name := "X", fqbn := some "f", port := none, avail := none },
        selectedPort := { address := "COM1", protocol := "serial" } }
      (some { selectedBoard := some { name := "Y", fqbn := some "g", port := none, avail := none },
              selectedPort := none })
      none
      { selectedBoard := some { name := "Y", fqbn := some "g", port := none, avail := none },
        selectedPort := none } {}).2.2.1 (by decide)).1

/-- C1: `tryReconnect` runs only when a latest-valid config exists and
the current configuration is not uploadable; it scans the
non-`incomplete` available boards in list order in two passes — the
first exact match (fqbn, name, port address+protocol) adopts the full
remembered config, else the first relaxed match (fqbn, name, port
protocol only) adopts the remembered board with the newly found port;
no match leaves the configuration unchanged.  The final conjunct is the
spec's re-enumeration example: remembered `X(F)` on `serial/COM5`,
invalid current config, `X(F)` now on `serial/COM10` — the engine adopts
`{X, serial/COM10}`. -/
theorem c1_tryReconnect_heuristic (s : ProviderState) (v : ValidConfig) (b : AB) :
    (s.latestValidBoardsConfig = none → tryReconnect s = s) ∧
    (canUploadToB s.boardsConfig = true → tryReconnect s = s) ∧
    (s.latestValidBoardsConfig = some v → canUploadToB s.boardsConfig = false →
      ((s.availableBoards.filter (fun e => !(e.state == AvState.incomplete))).find?
          (exactReconnectMatch v) = some b →
        tryReconnect s = setBoardsConfig v.toConfig s) ∧
      ((s.availableBoards.filter (fun e => !(e.state == AvState.incomplete))).find?
          (exactReconnectMatch v) = none →
       (s.availableBoards.filter (fun e => !(e.state == AvState.incomplete))).find?
          (relaxedReconnectMatch v) = some b →
        tryReconnect s =
          setBoardsConfig { selectedBoard := some v.selectedBoard, selectedPort := b.port } s) ∧
      ((s.availableBoards.filter (fun e => !(e.state == AvState.incomplete))).find?
          (exactReconnectMatch v) = none →
       (s.availableBoards.filter (fun e => !(e.state == AvState.incomplete))).find?
          (relaxedReconnectMatch v) = none →
        tryReconnect s = s)) ∧
    (tryReconnect
        { boardsConfig := { selectedBoard := none, selectedPort := none },
          latestBoardsConfig := none,
          latestValidBoardsConfig :=
            some { selectedBoard := { name := "X", fqbn := some "F", port := none, avail := none },
                   selectedPort := { address := "COM5", protocol := "serial" } },
          attachedBoards := [],
          availablePorts := [],
          availableBoards :=
            [{ name := "X", fqbn := some "F", state := AvState.recognized, selected := false,
               port := some { address := "COM10", protocol := "serial" } }] }).boardsConfig =
      { selectedBoard := some { name := "X", fqbn := some "F", port := none, avail := none },
        selectedPort := some { address := "COM10", protocol := "serial" } } := by
  refine ⟨?_, ?_, ?_, by decide⟩
  · intro h
    simp [tryReconnect, h]
  · intro h
    rcases hlv : s.latestValidBoardsConfig with _ | v'
    · simp [tryReconnect, hlv]
    · simp [tryReconnect, hlv, h]
  · intro hlv hup
    refine ⟨?_, ?_, ?_⟩
    · intro hfind
      simp [tryReconnect, hlv, hup, hfind]
    · intro hnone hfind
      simp [tryReconnect, hlv, hup, hnone, hfind]
    · intro hnone hnone'
      simp [tryReconnect, hlv, hup, hnone, hnone']

/-- C1 witness: the gating and the relaxed pass at concrete inputs —
with no latest-valid config nothing changes, and the spec's example
state adopts the remembered board on the new port through the theorem's
relaxed-match clause. -/
theorem c1_tryReconnect_heuristic_witness :
    tryReconnect { boardsConfig := { selectedBoard := none, selectedPort := none },
                   latestBoardsConfig := none, latestValidBoardsConfig := none,
                   attachedBoards := [], availablePorts := [], availableBoards := [] } =
      { boardsConfig := { selectedBoard := none, selectedPort := none },
        latestBoardsConfig := none, latestValidBoardsConfig := none,
        attachedBoards := [], availablePorts := [], availableBoards := [] } ∧
    tryReconnect
        { boardsConfig := { selectedBoard := none, selectedPort := none },
          latestBoardsConfig := none,
          latestValidBoardsConfig :=
            some { selectedBoard := { name := "X", fqbn := some "F", port := none, avail := none },
                   selectedPort := { address := "COM5", protocol := "serial" } },
          attachedBoards := [],
          availablePorts := [],
          availableBoards :=
            [{ name := "X", fqbn := some "F", state := AvState.recognized, selected := false,
               port := some { address := "COM10", protocol := "serial" } }] } =
      setBoardsConfig
        { selectedBoard := some { name := "X", fqbn := some "F", port := none, avail := none },
          selectedPort := some { address := "COM10", protocol := "serial" } }
        { boardsConfig := { selectedBoard := none, selectedPort := none },
          latestBoardsConfig := none,
          latestValidBoardsConfig :=
            some { selectedBoard := { name := "X", fqbn := some "F", port := none, avail := none },
                   selectedPort := { address := "COM5", protocol := "serial" } },
          attachedBoards := [],
          availablePorts := [],
          availableBoards :=
            [{ name := "X", fqbn := some "F", state := AvState.recognized, selected := false,
               port := some { address := "COM10", protocol := "serial" } }] } := by
  constructor
  · exact (c1_tryReconnect_heuristic
      { boardsConfig := { selectedBoard := none, selectedPort := none },
        latestBoardsConfig := none, latestValidBoardsConfig := none,
        attachedBoards := [], availablePorts := [], availableBoards := [] }
      ⟨{ name := "X" }, { address := "A", protocol := "serial" }⟩
      { name := "X", state := AvState.recognized }).1 rfl
  · exact ((c1_tryReconnect_heuristic
      { boardsConfig := { selectedBoard := none, selectedPort := none },
        latestBoardsConfig := none,
        latestValidBoardsConfig :=
          some { selectedBoard := { name := "X", fqbn := some "F", port := none, avail := none },
                 selectedPort := { address := "COM5", protocol := "serial" } },
        attachedBoards := [],
        availablePorts := [],
        availableBoards :=
          [{ name := "X", fqbn := some "F", state := AvState.recognized, selected := false,
             port := some { address := "COM10", protocol := "serial" } }] }
      { selectedBoard := { name := "X", fqbn := some "F", port := none, avail := none },
        selectedPort := { address := "COM5", protocol := "serial" } }
      { name := "X", fqbn := some "F", state := AvState.recognized, selected := false,
        port := some { address := "COM10", protocol := "serial" } }).2.2.1
      rfl (by decide)).2.1 (by decide) (by decide)

/-- C4 (code bug): once the `waitUntilAvailable` race settles by
timeout, the subscription the call registered on
`onAvailableBoardsChanged` is still registered — only a later matching
boards-changed event would dispose it — whereas settling by a matching
board disposes the subscription. -/
theorem c4_timeout_leaves_subscription :
    runWait ({ name := "X", fqbn := some "F", port := none, avail := none },
             { address := "COM1", protocol := "serial" })
        (some 50) [] [WEvent.timeoutFire]
      = (WOutcome.rejectedTimeout, true) ∧
    runWait ({ name := "X", fqbn := some "F", port := none, avail := none },
             { address := "COM1", protocol := "serial" })
        (some 50) []
        [WEvent.boardsChanged
          [{ name := "X", fqbn := some "F", state := AvState.recognized, selected := false,
             port := some { address := "COM1", protocol := "serial" } }]]
      = (WOutcome.resolved, false) := by
  decide

/-- Once the race has settled, later events cannot change the outcome. -/
theorem runWaitAux_settled (target : Board × Port) (ht : Bool) :
    ∀ (es : List WEvent) (o : WOutcome) (listener : Bool),
      (runWaitAux target ht es (some o) listener).1 = o := by
  intro es
  induction es with
  | nil => intro o listener; rfl
  | cons e es ih =>
    intro o listener
    cases e with
    | boardsChanged bs =>
      cases h : listener && bs.any (waitMatches target) <;> simp [runWaitAux, h, ih]
    | timeoutFire =>
      cases ht <;> simp [runWaitAux, ih]

/-- Without a timer, the race can never settle with the timeout error. -/
theorem runWaitAux_no_timeout_no_reject (target : Board × Port) :
    ∀ (es : List WEvent) (settled : Option WOutcome) (listener : Bool),
      settled ≠ some WOutcome.rejectedTimeout →
      (runWaitAux target false es settled listener).1 ≠ WOutcome.rejectedTimeout := by
  intro es
  induction es with
  | nil =>
    intro settled listener hs
    rcases settled with _ | o
    · simp [runWaitAux]
    · simpa [runWaitAux] using hs
  | cons e es ih =>
    intro settled listener hs
    cases e with
    | boardsChanged bs =>
      cases h : listener && bs.any (waitMatches target)
      · simp only [runWaitAux, h, Bool.false_eq_true, if_false]
        exact ih settled listener hs
      · simp only [runWaitAux, h, if_true]
        refine ih _ false ?_
        rcases settled with _ | o
        · simp
        · simpa using hs
    | timeoutFire =>
      simp only [runWaitAux, Bool.false_eq_true, if_false]
      exact ih settled listener hs

/-- Traces whose boards-changed events never match keep the race
pending (when nothing has settled and no timer exists). -/
theorem runWaitAux_pending (target : Board × Port) :
    ∀ (es : List WEvent) (listener : Bool),
      (es.all (fun e => match e with
        | WEvent.boardsChanged l => !(l.any (waitMatches target))
        | WEvent.timeoutFire => true)) = true →
      (runWaitAux target false es none listener).1 = WOutcome.pending := by
  intro es
  induction es with
  | nil => intro listener _; rfl
  | cons e es ih =>
    intro listener hall
    rw [List.all_cons, Bool.and_eq_true] at hall
    cases e with
    | boardsChanged bs =>
      have hbs : bs.any (waitMatches target) = false := by
        simpa using hall.1
      simp only [runWaitAux, hbs, Bool.and_false, Bool.false_eq_true, if_false]
      exact ih listener hall.2
    | timeoutFire =>
      simp only [runWaitAux, Bool.false_eq_true, if_false]
      exact ih listener hall.2

/-- A timeout firing after only non-matching notifications settles the
race with the timeout rejection. -/
theorem runWaitAux_timeout_rejects (target : Board × Port) :
    ∀ (pre post : List WEvent),
      (pre.all (fun e => match e with
        | WEvent.boardsChanged l => !(l.any (waitMatches target))
        | WEvent.timeoutFire => true)) = true →
      (runWaitAux target true (pre ++ WEvent.timeoutFire :: post) none true).1 =
        WOutcome.rejectedTimeout := by
  intro pre
  induction pre with
  | nil =>
    intro post _
    simp only [List.nil_append, runWaitAux, if_true, Option.getD]
    exact runWaitAux_settled target true post WOutcome.rejectedTimeout true
  | cons e pre ih =>
    intro post hall
    rw [List.all_cons, Bool.and_eq_true] at hall
    cases e with
    | boardsChanged bs =>
      have hbs : bs.any (waitMatches target) = false := by
        simpa using hall.1
      simp only [List.cons_append, runWaitAux, hbs, Bool.and_false, Bool.false_eq_true,
        if_false]
      exact ih post hall.2
    | timeoutFire =>
      simp only [List.cons_append, runWaitAux, if_true, Option.getD]
      exact runWaitAux_settled target true (pre ++ WEvent.timeoutFire :: post)
        WOutcome.rejectedTimeout true

/-- A matching notification preceded by no timeout firing settles the
race with resolution. -/
theorem runWaitAux_match_resolves (target : Board × Port) (ht : Bool) :
    ∀ (pre post : List WEvent) (bs : List AB),
      (pre.all (fun e => !(e == WEvent.timeoutFire))) = true →
      bs.any (waitMatches target) = true →
      (runWaitAux target ht (pre ++ WEvent.boardsChanged bs :: post) none true).1 =
        WOutcome.resolved := by
  intro pre
  induction pre with
  | nil =>
    intro post bs _ hbs
    simp only [List.nil_append, runWaitAux, hbs, Bool.and_self, if_true, Option.getD]
    exact runWaitAux_settled target ht post WOutcome.resolved false
  | cons e pre ih =>
    intro post bs hall hbs
    rw [List.all_cons, Bool.and_eq_true] at hall
    cases e with
    | boardsChanged bs' =>
      cases h : bs'.any (waitMatches target)
      · simp only [List.cons_append, runWaitAux, h, Bool.and_false, Bool.false_eq_true,
          if_false]
        exact ih post bs hall.2 hbs
      · simp only [List.cons_append, runWaitAux, h, Bool.and_self, if_true, Option.getD]
        exact runWaitAux_settled target ht (pre ++ WEvent.boardsChanged bs :: post)
          WOutcome.resolved false
    | timeoutFire =>
      exact absurd hall.1 (by simp)

/-- C9: `waitUntilAvailable` with no timeout never rejects — it stays
pending through any trace without a matching board and only resolves on
a match; an immediately matching board resolves at once; with a positive
timeout, the timer firing before any matching notification settles the
promise with the distinct timeout rejection, while a match occurring
before any timer firing resolves it; and the timeout rejection is a
typed outcome distinct from both pending and resolved. -/
theorem c9_waitUntilAvailable_timeout_behaviour (target : Board × Port) (t : Int)
    (timeout : Option Int) (initial bs : List AB) (events pre post : List WEvent) :
    ((runWait target none initial events).1 ≠ WOutcome.rejectedTimeout) ∧
    (initial.any (waitMatches target) = false →
      (events.all (fun e => match e with
        | WEvent.boardsChanged l => !(l.any (waitMatches target))
        | WEvent.timeoutFire => true)) = true →
      (runWait target none initial events).1 = WOutcome.pending) ∧
    (initial.any (waitMatches target) = true →
      runWait target timeout initial events = (WOutcome.resolved, false)) ∧
    (0 < t →
      initial.any (waitMatches target) = false →
      (pre.all (fun e => match e with
        | WEvent.boardsChanged l => !(l.any (waitMatches target))
        | WEvent.timeoutFire => true)) = true →
      (runWait target (some t) initial (pre ++ WEvent.timeoutFire :: post)).1 =
        WOutcome.rejectedTimeout) ∧
    (initial.any (waitMatches target) = false →
      (pre.all (fun e => !(e == WEvent.timeoutFire))) = true →
      bs.any (waitMatches target) = true →
      (runWait target timeout initial (pre ++ WEvent.boardsChanged bs :: post)).1 =
        WOutcome.resolved) ∧
    (WOutcome.rejectedTimeout ≠ WOutcome.pending ∧
      WOutcome.rejectedTimeout ≠ WOutcome.resolved) := by
  refine ⟨?_, ?_, ?_, ?_, ?_, by decide, by decide⟩
  · by_cases hinit : initial.any (waitMatches target) = true
    · simp [runWait, hinit]
    · rw [runWait, if_neg hinit]
      exact runWaitAux_no_timeout_no_reject target events none true (by simp)
  · intro hinit hall
    rw [runWait, if_neg (by simp [hinit])]
    simpa [hasPositiveTimeout] using runWaitAux_pending target events true hall
  · intro hinit
    simp [runWait, hinit]
  · intro ht hinit hall
    rw [runWait, if_neg (by simp [hinit])]
    have hpt : hasPositiveTimeout (some t) = true := by
      simpa [hasPositiveTimeout] using ht
    rw [hpt]
    exact runWaitAux_timeout_rejects target pre post hall
  · intro hinit hall hbs
    rw [runWait, if_neg (by simp [hinit])]
    exact runWaitAux_match_resolves target (hasPositiveTimeout timeout) pre post bs hall hbs

/-- C9 witness: at concrete inputs — a positive timeout firing first
rejects with the timeout outcome, a match arriving first resolves, and
without a timeout the same non-matching trace stays pending. -/
theorem c9_waitUntilAvailable_timeout_behaviour_witness :
    (runWait ({ name := "X", fqbn := some "F", port := none, avail := none },
              { address := "COM1", protocol := "serial" })
        (some 50) []
        ([WEvent.boardsChanged []] ++ WEvent.timeoutFire :: [])).1 =
      WOutcome.rejectedTimeout ∧
    (runWait ({ name := "X", fqbn := some "F", port := none, avail := none },
              { address := "COM1", protocol := "serial" })
        (some 50) []
        ([] ++ WEvent.boardsChanged
          [{ name := "X", fqbn := some "F", state := AvState.recognized, selected := false,
             port := some { address := "COM1", protocol := "serial" } }] :: [])).1 =
      WOutcome.resolved ∧
    (runWait ({ name := "X", fqbn := some "F", port := none, avail := none },
              { address := "COM1", protocol := "serial" })
        none [] [WEvent.boardsChanged []]).1 = WOutcome.pending := by
  refine ⟨?_, ?_, ?_⟩
  · exact (c9_waitUntilAvailable_timeout_behaviour
      ({ name := "X", fqbn := some "F", port := none, avail := none },
       { address := "COM1", protocol := "serial" }) 50 (some 50) [] []
      [] [WEvent.boardsChanged []] []).2.2.2.1 (by decide) (by decide) (by decide)
  · exact (c9_waitUntilAvailable_timeout_behaviour
      ({ name := "X", fqbn := some "F", port := none, avail := none },
       { address := "COM1", protocol := "serial" }) 50 (some 50) []
      [{ name := "X", fqbn := some "F", state := AvState.recognized, selected := false,
         port := some { address := "COM1", protocol := "serial" } }]
      [] [] []).2.2.2.2.1 (by decide) (by decide) (by decide)
  · exact (c9_waitUntilAvailable_timeout_behaviour
      ({ name := "X", fqbn := some "F", port := none, avail := none },
       { address := "COM1", protocol := "serial" }) 50 none [] []
      [WEvent.boardsChanged []] [] []).2.1 (by decide) (by decide)

/-- The state of the C8 counterexample: the selected board is an
`AvailableBoard` snapshot whose captured flags say `recognized` and
selected, while the current `availableBoards` list is empty. -/
def c8StaleSnapshotState : ProviderState :=
  { boardsConfig :=
      { selectedBoard := some { name := "Uno", fqbn := some "arduino:avr:uno", port := none,
                                avail := some (AvState.recognized, true) },
        selectedPort := none },
    latestBoardsConfig := none, latestValidBoardsConfig := none,
    attachedBoards := [], availablePorts := [],
    availableBoards := [] }

/-- C8 counterexample: the selected board is an `AvailableBoard`
snapshot whose own captured flags say `recognized` and selected, but the
current `availableBoards` list is empty — there is no live attached
device backing the selection — yet the uninstall handler trusts the
snapshot's stale flags and preserves the fqbn, where the claim demands
it be stripped. -/
theorem c8_counterexample :
    (¬ ∃ ab ∈ c8StaleSnapshotState.availableBoards,
      ab.selected = true ∧ ab.state = AvState.recognized) ∧
    (notifyPlatformUninstalled
        [{ name := "Uno", fqbn := some "arduino:avr:uno", port := none, avail := none }]
        c8StaleSnapshotState).boardsConfig.selectedBoard =
      some { name := "Uno", fqbn := some "arduino:avr:uno", port := none,
             avail := some (AvState.recognized, true) } := by
  constructor
  · rintro ⟨ab, hab, -⟩
    simp [c8StaleSnapshotState] at hab
  · decide

/-- C8 (amended): on a package-uninstall event, when the selected board
has a truthy fqbn and the first event board with its name carries the
same fqbn, the configuration is re-set through the setter with the fqbn
stripped and the name preserved — unless `uninstallBacked` holds, i.e.
the backing test succeeds, where the backing is decided by the selected
board's own captured `AvailableBoard` flags when it is a snapshot and by
a `Board.sameAs` lookup in the current `availableBoards` otherwise; in
every other case the state is unchanged. -/
theorem c8_uninstall_strips_fqbn (s : ProviderState) (sb ub : Board) (evs : List Board) :
    (s.boardsConfig.selectedBoard = some sb →
      strTruthy sb.fqbn = true →
      evs.find? (fun b => b.name == sb.name) = some ub →
      ub.fqbn = sb.fqbn →
      (uninstallBacked s sb = true → notifyPlatformUninstalled evs s = s) ∧
      (uninstallBacked s sb = false →
        notifyPlatformUninstalled evs s =
          setBoardsConfig
            { selectedBoard := some { name := sb.name, fqbn := none, port := none, avail := none },
              selectedPort := s.boardsConfig.selectedPort } s)) ∧
    (s.boardsConfig.selectedBoard = some sb →
      strTruthy sb.fqbn = true →
      evs.find? (fun b => b.name == sb.name) = some ub →
      ¬(ub.fqbn = sb.fqbn) →
      notifyPlatformUninstalled evs s = s) ∧
    (s.boardsConfig.selectedBoard = some sb →
      strTruthy sb.fqbn = true →
      evs.find? (fun b => b.name == sb.name) = none →
      notifyPlatformUninstalled evs s = s) ∧
    (s.boardsConfig.selectedBoard = some sb →
      strTruthy sb.fqbn = false →
      notifyPlatformUninstalled evs s = s) ∧
    (s.boardsConfig.selectedBoard = none →
      notifyPlatformUninstalled evs s = s) := by
  refine ⟨?_, ?_, ?_, ?_, ?_⟩
  · intro hsb hfq hfind hub
    constructor
    · intro hb
      simp [notifyPlatformUninstalled, hsb, hfq, hfind, hub, hb]
    · intro hb
      simp [notifyPlatformUninstalled, hsb, hfq, hfind, hub, hb]
  · intro hsb hfq hfind hub
    simp [notifyPlatformUninstalled, hsb, hfq, hfind, hub]
  · intro hsb hfq hfind
    simp [notifyPlatformUninstalled, hsb, hfq, hfind]
  · intro hsb hfq
    simp [notifyPlatformUninstalled, hsb, hfq]
  · intro hsb
    simp [notifyPlatformUninstalled, hsb]

/-- C8 witness: the spec's two Uno scenarios through the amended
theorem — with no live backing the fqbn is stripped and the name kept;
with a live `recognized`, selected Uno entry the fqbn is preserved. -/
theorem c8_uninstall_strips_fqbn_witness :
    (notifyPlatformUninstalled
        [{ name := "Uno", fqbn := some "arduino:avr:uno", port := none, avail := none }]
        { boardsConfig :=
            { selectedBoard := some { name := "Uno", fqbn := some "arduino:avr:uno", port := none,
                                      avail := none },
              selectedPort := none },
          latestBoardsConfig := none, latestValidBoardsConfig := none,
          attachedBoards := [], availablePorts := [],
          availableBoards := [] }).boardsConfig.selectedBoard =
      some { name := "Uno", fqbn := none, port := none, avail := none } ∧
    (notifyPlatformUninstalled
        [{ name := "Uno", fqbn := some "arduino:avr:uno", port := none, avail := none }]
        { boardsConfig :=
            { selectedBoard := some { name := "Uno", fqbn := some "arduino:avr:uno", port := none,
                                      avail := none },
              selectedPort := some { address := "COM1", protocol := "serial" } },
          latestBoardsConfig := none, latestValidBoardsConfig := none,
          attachedBoards := [], availablePorts := [],
          availableBoards :=
            [{ name := "Uno", fqbn := some "arduino:avr:uno", state := AvState.recognized,
               selected := true, port := some { address := "COM1", protocol := "serial" } }] }) =
      { boardsConfig :=
          { selectedBoard := some { name := "Uno", fqbn := some "arduino:avr:uno", port := none,
                                    avail := none },
            selectedPort := some { address := "COM1", protocol := "serial" } },
        latestBoardsConfig := none, latestValidBoardsConfig := none,
        attachedBoards := [], availablePorts := [],
        availableBoards :=
          [{ name := "Uno", fqbn := some "arduino:avr:uno", state := AvState.recognized,
             selected := true, port := some { address := "COM1", protocol := "serial" } }] } := by
  constructor
  · have h := ((c8_uninstall_strips_fqbn
      { boardsConfig :=
          { selectedBoard := some { name := "Uno", fqbn := some "arduino:avr:uno", port := none,
                                    avail := none },
            selectedPort := none },
        latestBoardsConfig := none, latestValidBoardsConfig := none,
        attachedBoards := [], availablePorts := [],
        availableBoards := [] }
      { name := "Uno", fqbn := some "arduino:avr:uno", port := none, avail := none }
      { name := "Uno", fqbn := some "arduino:avr:uno", port := none, avail := none }
      [{ name := "Uno", fqbn := some "arduino:avr:uno", port := none, avail := none }]).1
      rfl (by decide) (by decide) rfl).2 (by decide)
    rw [h]
    decide
  · exact ((c8_uninstall_strips_fqbn
      { boardsConfig :=
          { selectedBoard := some { name := "Uno", fqbn := some "arduino:avr:uno", port := none,
                                    avail := none },
            selectedPort := some { address := "COM1", protocol := "serial" } },
        latestBoardsConfig := none, latestValidBoardsConfig := none,
        attachedBoards := [], availablePorts := [],
        availableBoards :=
          [{ name := "Uno", fqbn := some "arduino:avr:uno", state := AvState.recognized,
             selected := true, port := some { address := "COM1", protocol := "serial" } }] }
      { name := "Uno", fqbn := some "arduino:avr:uno", port := none, avail := none }
      { name := "Uno", fqbn := some "arduino:avr:uno", port := none, avail := none }
      [{ name := "Uno", fqbn := some "arduino:avr:uno", port := none, avail := none }]).1
      rfl (by decide) (by decide) rfl).1 (by decide)

/-- Swapping the arguments of the token order swaps the outcome. -/
theorem NatToken.cmp_swap (a b : NatToken) : NatToken.cmp b a = (NatToken.cmp a b).swap := by
  cases a with
  | digits ds =>
    cases b with
    | digits es =>
      rcases Nat.lt_trichotomy (digitsToNat ds) (digitsToNat es) with h | h | h
      · simp [NatToken.cmp, h, Nat.lt_asymm h, Ordering.swap]
      · simp [NatToken.cmp, h, Ordering.swap]
      · simp [NatToken.cmp, h, Nat.lt_asymm h, Ordering.swap]
    | ch c => simp [NatToken.cmp, Ordering.swap]
  | ch c =>
    cases b with
    | digits es => simp [NatToken.cmp, Ordering.swap]
    | ch d =>
      rcases Nat.lt_trichotomy c.toNat d.toNat with h | h | h
      · simp [NatToken.cmp, h, Nat.lt_asymm h, Ordering.swap]
      · simp [NatToken.cmp, h, Ordering.swap]
      · simp [NatToken.cmp, h, Nat.lt_asymm h, Ordering.swap]

/-- Swapping the arguments of the lexicographic token comparison swaps
the outcome. -/
theorem lexTokens_swap : ∀ l1 l2 : List NatToken, lexTokens l2 l1 = (lexTokens l1 l2).swap := by
  intro l1
  induction l1 with
  | nil => intro l2; cases l2 <;> simp [lexTokens, Ordering.swap]
  | cons a as ih =>
    intro l2
    cases l2 with
    | nil => simp [lexTokens, Ordering.swap]
    | cons b bs =>
      simp only [lexTokens, NatToken.cmp_swap a b]
      cases h : NatToken.cmp a b <;> simp [Ordering.swap, ih bs]

/-- The natural comparison is sign-antisymmetric. -/
theorem naturalCompare_swap (a b : String) : naturalCompare b a = -(naturalCompare a b) := by
  unfold naturalCompare
  rw [lexTokens_swap (natTokens a.data) (natTokens b.data)]
  cases lexTokens (natTokens a.data) (natTokens b.data) <;> simp [Ordering.swap]

/-- The comparator's branch structure, abstracted: swapping the two
sides negates the result, provided the final fallback is negated. -/
theorem cmp_chain_swap (a b : Option String) (m n : Nat) (x : Int) :
    (if b == some "serial" && !(a == some "serial") then (-1 : Int)
     else if !(b == some "serial") && a == some "serial" then 1
     else if b == some "network" && !(a == some "network") then -1
     else if !(b == some "network") && a == some "network" then 1
     else if b == a && decide (n < m) then -1
     else if b == a && decide (m < n) then 1
     else -x) =
    -(if a == some "serial" && !(b == some "serial") then (-1 : Int)
      else if !(a == some "serial") && b == some "serial" then 1
      else if a == some "network" && !(b == some "network") then -1
      else if !(a == some "network") && b == some "network" then 1
      else if a == b && decide (m < n) then -1
      else if a == b && decide (n < m) then 1
      else x) := by
  by_cases has : a = some "serial" <;> by_cases hbs : b = some "serial"
  · subst has
    rw [hbs]
    rcases Nat.lt_trichotomy m n with h | h | h
    · simp [h, Nat.lt_asymm h]
    · subst h; simp
    · simp [h, Nat.lt_asymm h]
  · simp [has, hbs]
  · simp [has, hbs]
  · by_cases han : a = some "network" <;> by_cases hbn : b = some "network"
    · subst han
      rw [hbn]
      rcases Nat.lt_trichotomy m n with h | h | h
      · simp [hbs, h, Nat.lt_asymm h]
      · subst h; simp [hbs]
      · simp [hbs, h, Nat.lt_asymm h]
    · simp [has, hbs, han, hbn]
    · simp [has, hbs, han, hbn]
    · by_cases hab : a = b
      · subst hab
        rcases Nat.lt_trichotomy m n with h | h | h
        · simp [has, han, h, Nat.lt_asymm h]
        · subst h; simp [has, han]
        · simp [has, han, h, Nat.lt_asymm h]
      · have hba : ¬ b = a := fun h => hab h.symm
        simp [has, hbs, han, hbn, hab, hba]

/-- `AvailableBoard.compare` is sign-antisymmetric. -/
theorem compare_swap (l r : AB) :
    AvailableBoard.compare r l = -(AvailableBoard.compare l r) := by
  have hn := naturalCompare_swap (addrString l.port) (addrString r.port)
  unfold AvailableBoard.compare
  dsimp only
  rw [hn]
  exact cmp_chain_swap (l.port.map (fun p => p.protocol)) (r.port.map (fun p => p.protocol))
    l.state.rank r.state.rank (naturalCompare (addrString l.port) (addrString r.port))

/-- The comparator is total: when `l` may not precede `r`, `r` may
precede `l`. -/
theorem abLE_total (a b : AB) : ¬ abLE a b → abLE b a := by
  intro h
  unfold abLE at *
  have hs := compare_swap a b
  omega

/-- Inserting into a list whose adjacent pairs respect the comparator
preserves that property. -/
theorem chain'_orderedInsert (a : AB) :
    ∀ l : List AB, l.Chain' abLE → (l.orderedInsert abLE a).Chain' abLE := by
  intro l
  induction l with
  | nil => intro _; simp
  | cons b l ih =>
    intro h
    rw [List.orderedInsert]
    by_cases hab : abLE a b
    · rw [if_pos hab]
      exact List.chain'_cons.2 ⟨hab, h⟩
    · rw [if_neg hab]
      rw [List.chain'_cons'] at h ⊢
      refine ⟨?_, ih h.2⟩
      intro y hy
      cases l with
      | nil =>
        simp [List.orderedInsert] at hy
        subst hy
        exact abLE_total a b hab
      | cons c l' =>
        rw [List.orderedInsert] at hy
        by_cases hac : abLE a c
        · rw [if_pos hac] at hy
          simp at hy
          subst hy
          exact abLE_total a b hab
        · rw [if_neg hac] at hy
          simp at hy
          subst hy
          exact h.1 c (by simp)

/-- The insertion sort used to model `Array.prototype.sort` produces a
list whose every adjacent pair respects `AvailableBoard.compare`. -/
theorem chain'_insertionSort :
    ∀ l : List AB, (l.insertionSort abLE).Chain' abLE := by
  intro l
  induction l with
  | nil => simp
  | cons a l ih =>
    rw [List.insertionSort]
    exact chain'_orderedInsert a _ ih

/-- The rank of the claim's protocol classes: serial, then network, then
every other protocol. -/
def protocolClassRank : Option Port → Nat
  | some q => if q.protocol = "serial" then 0 else if q.protocol = "network" then 1 else 2
  | none => 2

/-- The total order claimed for C7: protocol class, then state, then the
natural comparison of the port addresses. -/
def claimedLE (l r : AB) : Prop :=
  protocolClassRank l.port < protocolClassRank r.port ∨
  (protocolClassRank l.port = protocolClassRank r.port ∧
    (l.state.rank < r.state.rank ∨
      (l.state.rank = r.state.rank ∧
        naturalCompare (addrString l.port) (addrString r.port) ≤ 0)))

instance : DecidableRel claimedLE := fun l r => by
  unfold claimedLE
  infer_instance

/-- C7 counterexample: a `recognized` board on a `usb` port with address
"B" and a `guessed` board on a `bt` port with address "A" are both in
the "other protocols" class, so the claimed order puts the recognized
entry first; the code comparator compares the states only when the two
protocols are literally equal and here falls through to the address
comparison, producing the guessed entry first — the output is not
sorted by the claimed total order. -/
theorem c7_counterexample :
    ¬ (reconcileOutput
        (fun a => if a = "A"
          then some { name := "Z", fqbn := none, port := none, avail := none } else none)
        { boardsConfig := { selectedBoard := none, selectedPort := none },
          latestBoardsConfig := none, latestValidBoardsConfig := none,
          attachedBoards :=
            [{ name := "X", fqbn := some "xf",
               port := some { address := "B", protocol := "usb" }, avail := none },
             { name := "W", fqbn := some "wf",
               port := some { address := "A", protocol := "usb" }, avail := none }],
          availablePorts :=
            [{ address := "B", protocol := "usb" }, { address := "A", protocol := "bt" }],
          availableBoards := [] }).Pairwise claimedLE := by
  decide

/-- C7 (amended): every adjacent pair of the produced `availableBoards`
list respects `AvailableBoard.compare` — serial before non-serial,
network before other non-serial, states compared only between literally
equal protocols, natural address comparison otherwise — and the spec's
example (serial "A" recognized, serial "B" guessed, network "C"
recognized, usb "D" recognized) comes out in the order A, B, C, D. -/
theorem c7_sort_order (remembered : String → Option Board) (s : ProviderState) :
    (reconcileOutput remembered s).Chain' abLE ∧
    (reconcileOutput
        (fun a => if a = "B"
          then some { name := "Z", fqbn := none, port := none, avail := none } else none)
        { boardsConfig := { selectedBoard := none, selectedPort := none },
          latestBoardsConfig := none, latestValidBoardsConfig := none,
          attachedBoards :=
            [{ name := "X1", fqbn := some "f1",
               port := some { address := "A", protocol := "serial" }, avail := none },
             { name := "X2", fqbn := some "f2",
               port := some { address := "C", protocol := "network" }, avail := none },
             { name := "X3", fqbn := some "f3",
               port := some { address := "D", protocol := "usb" }, avail := none }],
          availablePorts :=
            [{ address := "D", protocol := "usb" }, { address := "C", protocol := "network" },
             { address := "B", protocol := "serial" }, { address := "A", protocol := "serial" }],
          availableBoards := [] }).map (fun e => addrString e.port) = ["A", "B", "C", "D"] := by
  constructor
  · unfold reconcileOutput
    exact chain'_insertionSort _
  · decide

/-- Every entry resolved from a candidate port occupies that port. -/
theorem resolve_port (cfg : Config) (att : List Board) (rem : String → Option Board)
    (p : Port) : (resolveAvailableBoard cfg att rem p).port = some p := by
  unfold resolveAvailableBoard
  rcases h : att.find? (fun b => Port.sameAs (some p) b.port) with _ | board
  · rcases h2 : rem p.address with _ | lsb <;> simp [h, h2]
  · simp [h]

/-- A selected resolved entry forces its candidate port to match the
configured port. -/
theorem resolve_selected_port (cfg : Config) (att : List Board)
    (rem : String → Option Board) (p : Port) :
    (resolveAvailableBoard cfg att rem p).selected = true →
    Port.sameAs cfg.selectedPort (some p) = true := by
  unfold resolveAvailableBoard Config.sameAs
  rcases h : att.find? (fun b => Port.sameAs (some p) b.port) with _ | board
  · rcases h2 : rem p.address with _ | lsb
    · simp [h, h2]
    · rcases h3 : cfg.selectedBoard with _ | sb
      · simp [h, h2, h3]
      · simp only [h, h2, h3, Bool.and_eq_true]
        exact fun hx => hx.2
  · rcases h3 : cfg.selectedBoard with _ | sb
    · simp [h, h3]
    · simp only [h, h3, Bool.and_eq_true]
      exact fun hx => hx.2

/-- Two ports that both match the same (possibly absent) configured port
match each other. -/
theorem port_sameAs_common (op : Option Port) (p q : Port) :
    Port.sameAs op (some p) = true → Port.sameAs op (some q) = true →
    Port.sameAs (some p) (some q) = true := by
  rcases op with _ | sp
  · simp [Port.sameAs]
  · simp only [Port.sameAs, Bool.and_eq_true, beq_iff_eq]
    rintro ⟨h1, h2⟩ ⟨h3, h4⟩
    exact ⟨h1.symm.trans h3, h2.symm.trans h4⟩

/-- A list whose pairs never satisfy `Q` together holds at most one
`Q`-element. -/
theorem countP_le_one_of_pairwise {α : Type} (Q : α → Bool) :
    ∀ l : List α, l.Pairwise (fun x y => ¬(Q x = true ∧ Q y = true)) → l.countP Q ≤ 1 := by
  intro l
  induction l with
  | nil => simp
  | cons a l ih =>
    intro hp
    rw [List.pairwise_cons] at hp
    rw [List.countP_cons]
    cases hq : Q a
    · simpa using ih hp.2
    · have h0 : l.countP Q = 0 := by
        rw [List.countP_eq_zero]
        intro x hx hQx
        exact hp.1 x hx ⟨hq, hQx⟩
      simp [h0]

/-- `clearMissingPort` touches only the configuration fields. -/
theorem clearMissingPort_ports (s : ProviderState) :
    (clearMissingPort s).availablePorts = s.availablePorts ∧
    (clearMissingPort s).attachedBoards = s.attachedBoards := by
  unfold clearMissingPort
  rcases h : s.boardsConfig.selectedPort with _ | p
  · exact ⟨rfl, rfl⟩
  · by_cases hc : (s.availablePorts.any fun port => Port.sameAs (some port) (some p)) = true
    · rw [if_pos hc]
      exact ⟨rfl, rfl⟩
    · rw [if_neg hc]
      exact ⟨rfl, rfl⟩

/-- With pairwise-distinct available ports, at most one loop entry is
selected. -/
theorem loopEntries_countP_le_one (remembered : String → Option Board) (s : ProviderState)
    (hports : s.availablePorts.Pairwise (fun p q => Port.sameAs (some p) (some q) = false)) :
    (loopEntries remembered s).countP (fun e => e.selected) ≤ 1 := by
  unfold loopEntries
  dsimp only
  rw [(clearMissingPort_ports s).1]
  set cfg := (clearMissingPort s).boardsConfig with hcfg
  set att := attachedWithPort (clearMissingPort s).attachedBoards with hatt
  rw [List.countP_map]
  apply countP_le_one_of_pairwise
  have hsub : List.Sublist (availableBoardPorts s.availablePorts att) s.availablePorts :=
    List.filter_sublist _
  refine (hports.sublist hsub).imp ?_
  intro p q hpq hsel
  have h1 := resolve_selected_port cfg att remembered p hsel.1
  have h2 := resolve_selected_port cfg att remembered q hsel.2
  rw [port_sameAs_common cfg.selectedPort p q h1 h2] at hpq
  exact Bool.true_eq_false.mp hpq

/-- The source's `findIndex`-plus-`splice` of one element is `eraseP`. -/
theorem findIdx_eraseIdx_eq_eraseP {α : Type} (p : α → Bool) :
    ∀ l : List α,
      (match l.findIdx? p with
       | some i => l.eraseIdx i
       | none => l) = l.eraseP p := by
  intro l
  induction l with
  | nil => rfl
  | cons a l ih =>
    cases hp : p a
    · rw [List.findIdx?_cons, List.eraseP_cons, hp]
      simp only [Bool.false_eq_true, if_false, cond_false]
      rw [List.findIdx?_succ]
      rcases h2 : l.findIdx? p with _ | i
      · rw [h2] at ih
        simp only [Option.map_none']
        exact congrArg (List.cons a) ih
      · rw [h2] at ih
        simp only [Option.map_some']
        exact congrArg (List.cons a) ih
    · rw [List.findIdx?_cons, List.eraseP_cons, hp]
      rfl

/-- When a board is configured and no loop entry is selected, the
synthetic-selected injection appends exactly the synthetic entry after
splicing out the first address clash. -/
theorem spliceSelected_eq (cfg : Config) (entries : List AB) (sb : Board)
    (hsb : cfg.selectedBoard = some sb)
    (hany : entries.any (fun e => e.selected) = false) :
    spliceSelected cfg entries =
      entries.eraseP (fun board =>
        board.port.map (fun p => p.address) == cfg.selectedPort.map (fun p => p.address)) ++
      [{ name := sb.name, fqbn := sb.fqbn, state := AvState.incomplete,
         selected := true, port := cfg.selectedPort }] := by
  unfold spliceSelected
  rw [hsb]
  dsimp only
  rw [if_neg (by simp [hany])]
  have hre := findIdx_eraseIdx_eq_eraseP (fun board =>
    board.port.map (fun p => p.address) == cfg.selectedPort.map (fun p => p.address)) entries
  rcases h2 : entries.findIdx? (fun board =>
      board.port.map (fun p => p.address) == cfg.selectedPort.map (fun p => p.address))
    with _ | i
  · rw [h2] at hre
    rw [h2, ← hre]
  · rw [h2] at hre
    rw [h2, ← hre]

/-- The synthetic-selected injection keeps the selected count at one or
below. -/
theorem splice_countP (cfg : Config) (entries : List AB)
    (hE : entries.countP (fun e => e.selected) ≤ 1) :
    (spliceSelected cfg entries).countP (fun e => e.selected) ≤ 1 := by
  rcases hsb : cfg.selectedBoard with _ | sb
  · unfold spliceSelected
    rw [hsb]
    exact hE
  · by_cases hany : entries.any (fun e => e.selected) = true
    · unfold spliceSelected
      rw [hsb]
      dsimp only
      rw [if_pos hany]
      exact hE
    · have hany' : entries.any (fun e => e.selected) = false := by
        cases h : entries.any (fun e => e.selected)
        · rfl
        · exact absurd h hany
      rw [spliceSelected_eq cfg entries sb hsb hany']
      rw [List.countP_append]
      have h0 : entries.countP (fun e => e.selected) = 0 := by
        rw [List.countP_eq_zero]
        intro x hx hQ
        exact (List.any_eq_false.1 hany' x hx) hQ
      have h1 : (entries.eraseP (fun board =>
          board.port.map (fun p => p.address) ==
            cfg.selectedPort.map (fun p => p.address))).countP (fun e => e.selected) ≤
          entries.countP (fun e => e.selected) :=
        (List.eraseP_sublist entries).countP_le _
      have hz : (entries.eraseP (fun board =>
          board.port.map (fun p => p.address) ==
            cfg.selectedPort.map (fun p => p.address))).countP (fun e => e.selected) = 0 :=
        Nat.le_antisymm (h0 ▸ h1) (Nat.zero_le _)
      rw [hz]
      simp [List.countP_cons]

/-- In the synthetic case the output holds exactly one selected entry:
the synthetic one, which is a member of the spliced list. -/
theorem splice_synthetic (cfg : Config) (entries : List AB) (sb : Board)
    (hsb : cfg.selectedBoard = some sb)
    (hany : entries.any (fun e => e.selected) = false) :
    (spliceSelected cfg entries).countP (fun e => e.selected) = 1 ∧
    { name := sb.name, fqbn := sb.fqbn, state := AvState.incomplete,
      selected := true, port := cfg.selectedPort } ∈ spliceSelected cfg entries := by
  rw [spliceSelected_eq cfg entries sb hsb hany]
  constructor
  · rw [List.countP_append]
    have h0 : entries.countP (fun e => e.selected) = 0 := by
      rw [List.countP_eq_zero]
      intro x hx hQ
      exact (List.any_eq_false.1 hany x hx) hQ
    have h1 : (entries.eraseP (fun board =>
        board.port.map (fun p => p.address) ==
          cfg.selectedPort.map (fun p => p.address))).countP (fun e => e.selected) ≤
        entries.countP (fun e => e.selected) :=
      (List.eraseP_sublist entries).countP_le _
    have hz : (entries.eraseP (fun board =>
        board.port.map (fun p => p.address) ==
          cfg.selectedPort.map (fun p => p.address))).countP (fun e => e.selected) = 0 :=
      Nat.le_antisymm (h0 ▸ h1) (Nat.zero_le _)
    rw [hz]
    simp [List.countP_cons]
  · exact List.mem_append_right _ (List.mem_singleton_self _)

/-- C5 counterexample: a duplicated serial port with a live board
matching the current configuration yields two identical `recognized`
entries, both selected — the unconditional at-most-one claim fails. -/
theorem c5_counterexample :
    ¬ ((reconcileOutput (fun _ => none)
        { boardsConfig :=
            { selectedBoard :=
                some { name := "X", fqbn := some "f",
                       port := some { address := "A", protocol := "serial" }, avail := none },
              selectedPort := some { address := "A", protocol := "serial" } },
          latestBoardsConfig := none, latestValidBoardsConfig := none,
          attachedBoards :=
            [{ name := "X", fqbn := some "f",
               port := some { address := "A", protocol := "serial" }, avail := none }],
          availablePorts :=
            [{ address := "A", protocol := "serial" }, { address := "A", protocol := "serial" }],
          availableBoards := [] }).countP (fun e => e.selected) ≤ 1) := by
  decide

/-- C5 (amended): with pairwise-distinct available ports (no two the
same by address and protocol), at most one entry of the reconciliation
output is selected; and whenever a board is configured but no entry
built from the candidate ports is selected, the output holds exactly one
selected entry — the synthetic `incomplete` entry carrying the
configured board and port. -/
theorem c5_single_selection (remembered : String → Option Board) (s : ProviderState)
    (sb : Board)
    (hports : s.availablePorts.Pairwise (fun p q => Port.sameAs (some p) (some q) = false)) :
    (reconcileOutput remembered s).countP (fun e => e.selected) ≤ 1 ∧
    ((clearMissingPort s).boardsConfig.selectedBoard = some sb →
      (loopEntries remembered s).any (fun e => e.selected) = false →
      (reconcileOutput remembered s).countP (fun e => e.selected) = 1 ∧
      ∃ e ∈ reconcileOutput remembered s,
        e.selected = true ∧ e.state = AvState.incomplete ∧ e.name = sb.name ∧
        e.fqbn = sb.fqbn ∧ e.port = (clearMissingPort s).boardsConfig.selectedPort) := by
  have hperm := List.perm_insertionSort abLE
    (spliceSelected (clearMissingPort s).boardsConfig (loopEntries remembered s))
  have hcnt : (reconcileOutput remembered s).countP (fun e => e.selected) =
      (spliceSelected (clearMissingPort s).boardsConfig (loopEntries remembered s)).countP
        (fun e => e.selected) := hperm.countP_eq _
  constructor
  · rw [hcnt]
    exact splice_countP _ _ (loopEntries_countP_le_one remembered s hports)
  · intro hsb hany
    have h := splice_synthetic _ _ sb hsb hany
    refine ⟨hcnt.trans h.1, ?_⟩
    exact ⟨_, hperm.mem_iff.2 h.2, rfl, rfl, rfl, rfl, rfl⟩

/-- C5 witness: a configured board with no live match produces exactly
one selected entry — the synthetic incomplete one. -/
theorem c5_single_selection_witness :
    (reconcileOutput (fun _ => none)
        { boardsConfig :=
            { selectedBoard := some { name := "B", fqbn := some "bf", port := none, avail := none },
              selectedPort := none },
          latestBoardsConfig := none, latestValidBoardsConfig := none,
          attachedBoards := [],
          availablePorts := [{ address := "A", protocol := "serial" }],
          availableBoards := [] }).countP (fun e => e.selected) = 1 ∧
    ∃ e ∈ reconcileOutput (fun _ => none)
        { boardsConfig :=
            { selectedBoard := some { name := "B", fqbn := some "bf", port := none, avail := none },
              selectedPort := none },
          latestBoardsConfig := none, latestValidBoardsConfig := none,
          attachedBoards := [],
          availablePorts := [{ address := "A", protocol := "serial" }],
          availableBoards := [] },
      e.selected = true ∧ e.state = AvState.incomplete ∧ e.name = "B" ∧
      e.fqbn = some "bf" ∧
      e.port = (clearMissingPort
        { boardsConfig :=
            { selectedBoard := some { name := "B", fqbn := some "bf", port := none, avail := none },
              selectedPort := none },
          latestBoardsConfig := none, latestValidBoardsConfig := none,
          attachedBoards := [],
          availablePorts := [{ address := "A", protocol := "serial" }],
          availableBoards := [] }).boardsConfig.selectedPort :=
  (c5_single_selection (fun _ => none)
    { boardsConfig :=
        { selectedBoard := some { name := "B", fqbn := some "bf", port := none, avail := none },
          selectedPort := none },
      latestBoardsConfig := none, latestValidBoardsConfig := none,
      attachedBoards := [],
      availablePorts := [{ address := "A", protocol := "serial" }],
      availableBoards := [] }
    { name := "B", fqbn := some "bf", port := none, avail := none }
    (by decide)).2 (by decide) (by decide)

/-- Each loop entry contributes exactly its candidate port's address. -/
theorem filterMap_key_map_resolve (cfg : Config) (att : List Board)
    (rem : String → Option Board) :
    ∀ ports : List Port,
      ((ports.map (resolveAvailableBoard cfg att rem)).filterMap
        (fun e => e.port.map (fun p => p.address))) = ports.map (fun p => p.address) := by
  intro ports
  induction ports with
  | nil => rfl
  | cons p ps ih =>
    simp [List.filterMap_cons, resolve_port, ih]

/-- The keys (port addresses) of the loop entries are the candidate-port
addresses. -/
theorem loopEntries_key (remembered : String → Option Board) (s : ProviderState) :
    (loopEntries remembered s).filterMap (fun e => e.port.map (fun p => p.address)) =
      (availableBoardPorts s.availablePorts (attachedWithPort s.attachedBoards)).map
        (fun p => p.address) := by
  unfold loopEntries
  dsimp only
  rw [(clearMissingPort_ports s).1, (clearMissingPort_ports s).2]
  exact filterMap_key_map_resolve _ _ _ _

/-- Appending the synthetic entry after erasing the first entry with its
address keeps the addresses duplicate-free. -/
theorem nodup_key_append_synth (A : String) (synth : AB)
    (hs : synth.port.map (fun p => p.address) = some A) :
    ∀ l : List AB,
      (l.filterMap (fun e => e.port.map (fun p => p.address))).Nodup →
      ((l.eraseP (fun e => e.port.map (fun p => p.address) == some A) ++ [synth]).filterMap
        (fun e => e.port.map (fun p => p.address))).Nodup := by
  intro l
  induction l with
  | nil =>
    intro _
    simp [List.filterMap_cons, hs]
  | cons e l ih =>
    intro hnd
    by_cases he : (e.port.map (fun p => p.address) == some A) = true
    · simp only [List.eraseP_cons, he, cond_true]
      have hkey : e.port.map (fun p => p.address) = some A := by simpa using he
      simp only [List.filterMap_cons, hkey] at hnd
      rw [List.nodup_cons] at hnd
      rw [List.filterMap_append]
      have hsynth : ([synth].filterMap (fun e => e.port.map (fun p => p.address))) = [A] := by
        simp [List.filterMap_cons, hs]
      rw [hsynth, List.nodup_append]
      refine ⟨hnd.2, List.nodup_singleton _, ?_⟩
      intro a ha hA'
      rw [List.mem_singleton] at hA'
      subst hA'
      exact hnd.1 ha
    · have he' : (e.port.map (fun p => p.address) == some A) = false := by
        simpa using he
      simp only [List.eraseP_cons, he', cond_false]
      rcases hk : e.port.map (fun p => p.address) with _ | a
      · simp only [List.cons_append, List.filterMap_cons, hk] at hnd ⊢
        exact ih hnd
      · have hne : a ≠ A := by
          intro h
          subst h
          exact he (by simp [hk])
        simp only [List.cons_append, List.filterMap_cons, hk] at hnd ⊢
        rw [List.nodup_cons] at hnd ⊢
        refine ⟨?_, ih hnd.2⟩
        intro hmem
        rw [List.filterMap_append] at hmem
        rcases List.mem_append.1 hmem with hm | hm
        · exact hnd.1 (List.Sublist.mem hm ((List.eraseP_sublist l).filterMap _))
        · have : a = A := by simpa [List.filterMap_cons, hs] using hm
          exact hne this

/-- Duplicate-free keys give pairwise distinct port addresses. -/
theorem pairwise_addr_of_nodup_filterMap :
    ∀ l : List AB,
      (l.filterMap (fun e => e.port.map (fun p => p.address))).Nodup →
      l.Pairwise (fun a b =>
        ¬ ∃ str, a.port.map (fun p => p.address) = some str ∧
          b.port.map (fun p => p.address) = some str) := by
  intro l
  induction l with
  | nil => intro _; exact List.Pairwise.nil
  | cons e l ih =>
    intro hnd
    rcases hk : e.port.map (fun p => p.address) with _ | a
    · simp only [List.filterMap_cons, hk] at hnd
      refine List.Pairwise.cons ?_ (ih hnd)
      rintro b hb ⟨str, h1, h2⟩
      rw [hk] at h1
      exact Option.noConfusion h1
    · simp only [List.filterMap_cons, hk] at hnd
      rw [List.nodup_cons] at hnd
      refine List.Pairwise.cons ?_ (ih hnd.2)
      rintro b hb ⟨str, h1, h2⟩
      rw [hk] at h1
      obtain rfl : a = str := Option.some.inj h1
      exact hnd.1 (List.mem_filterMap.2 ⟨b, hb, h2⟩)

/-- C6 counterexample: a serial port and a network port sharing the
address "A" (the network one backed by an attached board) both survive
reconciliation, so two entries of the output share a port address. -/
theorem c6_counterexample :
    ¬ ((reconcileOutput (fun _ => none)
        { boardsConfig := { selectedBoard := none, selectedPort := none },
          latestBoardsConfig := none, latestValidBoardsConfig := none,
          attachedBoards :=
            [{ name := "N", fqbn := some "nf",
               port := some { address := "A", protocol := "network" }, avail := none }],
          availablePorts :=
            [{ address := "A", protocol := "serial" },
             { address := "A", protocol := "network" }],
          availableBoards := [] }).Pairwise (fun a b =>
      ¬ ∃ str, a.port.map (fun p => p.address) = some str ∧
        b.port.map (fun p => p.address) = some str)) := by
  decide

/-- C6 (amended): when the available ports carry pairwise-distinct
addresses, no two entries of the reconciliation output share a port
address — in particular the synthetic selected entry replaces the unique
entry occupying its address. -/
theorem c6_dedup_addresses (remembered : String → Option Board) (s : ProviderState)
    (haddr : (s.availablePorts.map (fun p => p.address)).Nodup) :
    (reconcileOutput remembered s).Pairwise (fun a b =>
      ¬ ∃ str, a.port.map (fun p => p.address) = some str ∧
        b.port.map (fun p => p.address) = some str) := by
  have hperm := List.perm_insertionSort abLE
    (spliceSelected (clearMissingPort s).boardsConfig (loopEntries remembered s))
  have hsym : ∀ {a b : AB},
      (¬ ∃ str, a.port.map (fun p => p.address) = some str ∧
        b.port.map (fun p => p.address) = some str) →
      ¬ ∃ str, b.port.map (fun p => p.address) = some str ∧
        a.port.map (fun p => p.address) = some str := by
    rintro a b h ⟨str, h1, h2⟩
    exact h ⟨str, h2, h1⟩
  refine (hperm.pairwise_iff hsym).2 (pairwise_addr_of_nodup_filterMap _ ?_)
  have hcandsub : List.Sublist
      ((availableBoardPorts s.availablePorts (attachedWithPort s.attachedBoards)).map
        (fun p => p.address))
      (s.availablePorts.map (fun p => p.address)) :=
    (List.filter_sublist s.availablePorts).map _
  have hE : ((loopEntries remembered s).filterMap
      (fun e => e.port.map (fun p => p.address))).Nodup := by
    rw [loopEntries_key]
    exact hcandsub.nodup haddr
  rcases hsb : (clearMissingPort s).boardsConfig.selectedBoard with _ | sb
  · unfold spliceSelected
    rw [hsb]
    exact hE
  · by_cases hany : (loopEntries remembered s).any (fun e => e.selected) = true
    · unfold spliceSelected
      rw [hsb]
      dsimp only
      rw [if_pos hany]
      exact hE
    · have hany' : (loopEntries remembered s).any (fun e => e.selected) = false := by
        cases h : (loopEntries remembered s).any (fun e => e.selected)
        · rfl
        · exact absurd h hany
      rw [spliceSelected_eq _ _ sb hsb hany']
      rcases hsp : (clearMissingPort s).boardsConfig.selectedPort with _ | sp
      · rw [List.filterMap_append]
        have hsynth : ([({ name := sb.name, fqbn := sb.fqbn, state := AvState.incomplete,
                           selected := true, port := none } : AB)].filterMap
              (fun e => e.port.map (fun p => p.address))) = [] := by
          simp [List.filterMap_cons]
        rw [hsynth, List.append_nil]
        exact ((List.eraseP_sublist _).filterMap _).nodup hE
      · simp only [Option.map_some']
        exact nodup_key_append_synth sp.address _ (by simp) _ hE

/-- C6 witness: two serial ports with distinct addresses produce two
entries on distinct addresses. -/
theorem c6_dedup_addresses_witness :
    (reconcileOutput (fun _ => none)
        { boardsConfig := { selectedBoard := none, selectedPort := none },
          latestBoardsConfig := none, latestValidBoardsConfig := none,
          attachedBoards := [],
          availablePorts := [{ address := "A", protocol := "serial" },
                             { address := "B", protocol := "serial" }],
          availableBoards := [] }).Pairwise (fun a b =>
      ¬ ∃ str, a.port.map (fun p => p.address) = some str ∧
        b.port.map (fun p => p.address) = some str) :=
  c6_dedup_addresses (fun _ => none)
    { boardsConfig := { selectedBoard := none, selectedPort := none },
      latestBoardsConfig := none, latestValidBoardsConfig := none,
      attachedBoards := [],
      availablePorts := [{ address := "A", protocol := "serial" },
                         { address := "B", protocol := "serial" }],
      availableBoards := [] }
    (by decide)
